import Mathlib

/-!
# SPV reorg test harness: convergence poll, sync consumer, wallet set-up and teardown

A shallow embedding of `remotewallet.go` and of the two scripted scenarios of
`main_test.go`.  External effects (RPC replies, process signals, timers) are
inputs of the definitions; what the code does with them (the calls it issues,
the test-log actions it performs, the values it returns) is the output.
-/

namespace SpvReorg

/-! ## Values, errors and contexts -/

/-- A Go byte slice, one number per byte. -/
abbrev Bytes := List Nat

/-- An operand of a formatting call (`fmt.Errorf`, `t.Logf`, `t.Errorf`, `t.Fatalf`). -/
inductive Arg where
  | u32 (v : Nat)
  | i64 (v : Int)
  | bytes (b : Bytes)
  | hash (h : Bytes)
  | str (s : String)
  | extErr (code : Nat)
  deriving DecidableEq

/-- A Go `error` value: one handed back by an external call, or one built by `fmt.Errorf`. -/
inductive GoError where
  | ext (code : Nat)
  | errorf (format : String) (args : List Arg)
  deriving DecidableEq

/-- An operand of a test-log call: a plain value or an error printed with `%v`. -/
inductive LogArg where
  | val (a : Arg)
  | err (e : GoError)
  deriving DecidableEq

/-- A `context.Context` as the harness builds them. -/
inductive Context where
  | background
  | withTimeout (parent : Context) (seconds : Nat)
  | withCancel (parent : Context)
  deriving DecidableEq

/-- Whether the context carries a deadline. -/
def Context.hasDeadline : Context → Bool
  | .background => false
  | .withTimeout _ _ => true
  | .withCancel parent => parent.hasDeadline

/-- What an endpoint does with one query: answer, fail, or never answer. -/
inductive Reply (α : Type) where
  | ok (v : α)
  | error (code : Nat)
  | never

/-- What the caller of a blocking RPC sees. -/
inductive CallResult (α : Type) where
  | ok (v : α)
  | error (err : GoError)
  | blocks

/-- Error code of a call ended by its context deadline. -/
def deadlineExceeded : Nat := 4

/-- A blocking RPC issued under `ctx`: an endpoint that never answers is only
given up on when the context has a deadline. -/
def rpcCall {α : Type} (ctx : Context) (r : Reply α) : CallResult α :=
  match r with
  | .ok v => .ok v
  | .error code => .error (.ext code)
  | .never => if ctx.hasDeadline then .error (.ext deadlineExceeded) else .blocks

/-- The Go conversion `uint32(v)` of a signed 64-bit value: the low 32 bits. -/
def uint32 (v : Int) : Nat := (v % 4294967296).toNat

/-- Go `bytes.Equal`. -/
def bytesEqual (a b : Bytes) : Bool := decide (a = b)

/-- The wallet's `BestBlockResponse`: `Height` is a `uint32`, `Hash` a byte slice. -/
structure BestBlockResponse where
  Height : Nat
  Hash : Bytes
  deriving DecidableEq

/-! ## assertWalletSynced -/

/-- Result of one run of the polled closure. -/
inductive PollOutcome where
  | done (err : Option GoError)
  | blocked
  deriving DecidableEq

/-- The closure handed to `wait.NoError` in `assertWalletSynced`
(remotewallet.go lines 242-264); `ctxb` is the captured context. -/
def poll (ctxb : Context) (walletReply : Reply BestBlockResponse)
    (minerReply : Reply (Bytes × Int)) : PollOutcome :=
  match rpcCall ctxb walletReply with
  | .blocks => .blocked
  | .error err => .done (some err)
  | .ok walletBlock =>
    match rpcCall ctxb minerReply with
    | .blocks => .blocked
    | .error err => .done (some err)
    | .ok (minerBlockHash, minerBlockHeight) =>
      if walletBlock.Height ≠ uint32 minerBlockHeight then
        .done (some (.errorf "unexpected block height -- got %d, want %d"
          [.u32 walletBlock.Height, .i64 minerBlockHeight]))
      else if ¬ bytesEqual walletBlock.Hash minerBlockHash then
        .done (some (.errorf "unexpected block hash -- got %s, want %s"
          [.bytes walletBlock.Hash, .hash minerBlockHash]))
      else
        .done none

/-- The retry loop `wait.NoError(f, timeout)` of the external `lntest/wait`
package: `f` is called again until it returns nil or the timeout is over, and
the last error of `f` is returned then.  `polls` is the number of calls the
timeout leaves room for, `i` the number of calls already made. -/
def waitNoError (f : Nat → PollOutcome) : Nat → Nat → Option GoError → PollOutcome
  | 0, _, predErr => .done predErr
  | polls + 1, i, _ =>
    match f i with
    | .blocked => .blocked
    | .done none => .done none
    | .done (some err) => waitNoError f polls (i + 1) (some err)

/-- How a harness function leaves the running test. -/
inductive TestOutcome where
  | passed
  | fatal (format : String) (args : List LogArg)
  | hung
  deriving DecidableEq

/-- The function `assertWalletSynced` (remotewallet.go lines 236-269); the
wallet and the miner are given by their reply to the i-th poll. -/
def assertWalletSynced (polls : Nat) (wallet : Nat → Reply BestBlockResponse)
    (miner : Nat → Reply (Bytes × Int)) : TestOutcome :=
  let ctxb := Context.background
  match waitNoError (fun i => poll ctxb (wallet i) (miner i)) polls 0 none with
  | .blocked => .hung
  | .done none => .passed
  | .done (some err) => .fatal "wallet not synced: %v" [.err err]

/-- The poll interval of `wait.Predicate`, in milliseconds. -/
def pollInterval : Nat := 20

/-- The timeout `time.Second*10` that `assertWalletSynced` hands to
`wait.NoError`, in milliseconds. -/
def syncTimeout : Nat := 10000

/-- The time one run of the polled closure takes, in milliseconds: that of the
wallet query, and that of the node query when the wallet query succeeded. -/
def pollMs (walletReply : Reply BestBlockResponse) (walletMs minerMs : Nat) : Nat :=
  match walletReply with
  | .ok _ => walletMs + minerMs
  | _ => walletMs

/-- The retry loop `wait.NoError(f, timeout)` with its clock, in milliseconds
since the call.  Each round sleeps the poll interval, gives up with the last
error of `f` when the timeout has passed by then, and calls `f` otherwise; the
exit timer is looked at only there, between calls.  `ms i` is the time call
`i` of `f` takes.  The result pairs the outcome with the time it is reached
(for a blocked call, the time the call was made); `none` is fuel used up. -/
def waitNoErrorClock (f : Nat → PollOutcome) (ms : Nat → Nat) (timeout : Nat) :
    Nat → Nat → Nat → Option GoError → Option (PollOutcome × Nat)
  | 0, _, _, _ => none
  | fuel + 1, now, i, predErr =>
    if timeout ≤ now + pollInterval then some (.done predErr, now + pollInterval)
    else
      match f i with
      | .blocked => some (.blocked, now + pollInterval)
      | .done none => some (.done none, now + pollInterval + ms i)
      | .done (some err) =>
        waitNoErrorClock f ms timeout fuel (now + pollInterval + ms i) (i + 1) (some err)

/-- The end of `assertWalletSynced` (remotewallet.go lines 266-268): a non-nil
error of the retry loop is fatal; a loop that never returns leaves the test hung. -/
def leaveTest : PollOutcome → TestOutcome
  | .blocked => .hung
  | .done none => .passed
  | .done (some err) => .fatal "wallet not synced: %v" [.err err]

/-- The function `assertWalletSynced` (remotewallet.go lines 236-269) with its
clock: `walletMs i` and `minerMs i` are the times the queries of poll `i` take.
The result pairs the way the function leaves the test with the time since the
call, in milliseconds; the fuel is one round more than fit into the timeout. -/
def assertWalletSyncedTimed (wallet : Nat → Reply BestBlockResponse)
    (miner : Nat → Reply (Bytes × Int)) (walletMs minerMs : Nat → Nat) :
    Option (TestOutcome × Nat) :=
  let ctxb := Context.background
  match waitNoErrorClock (fun i => poll ctxb (wallet i) (miner i))
      (fun i => pollMs (wallet i) (walletMs i) (minerMs i))
      syncTimeout (syncTimeout / pollInterval + 1) 0 0 none with
  | none => none
  | some (o, t) => some (leaveTest o, t)

/-! ## consumeSyncMsgs -/

/-- One result of `syncStream.Recv()`: a message with its `Synced` flag, or an error. -/
inductive RecvResult where
  | msg (synced : Bool)
  | err (code : Nat)
  deriving DecidableEq

/-- What the consumer goroutine does, in order: a `Recv` that returned the
given result; the send on `onSyncedChan` taken by a receiver; the send on
`onSyncedChan` reached with no receiver left, in which the goroutine stays
blocked for ever; the return. -/
inductive ConsumeAction where
  | recv (r : RecvResult)
  | send
  | sendBlocked
  | ret
  deriving DecidableEq

/-- The function `consumeSyncMsgs` (remotewallet.go lines 37-49) run on the
results its stream still has to deliver.  `onSyncedChan` is unbuffered
(line 180), so the send of line 45 completes only when a receiver takes it:
`receiver` says whether the select of lines 182-188 is still waiting on the
channel when the send is reached.  On an exhausted stream `Recv` blocks and
nothing more happens. -/
def consumeSyncMsgs (receiver : Bool) : List RecvResult → List ConsumeAction
  | [] => []
  | .err code :: _ => [.recv (.err code), .ret]
  | .msg synced :: rest =>
    if synced then
      if receiver then [.recv (.msg synced), .send, .ret]
      else [.recv (.msg synced), .sendBlocked]
    else .recv (.msg synced) :: consumeSyncMsgs receiver rest

/-- Number of completed sends on `onSyncedChan` in a run of the consumer. -/
def sendCount (tr : List ConsumeAction) : Nat := tr.count .send

/-- Number of times a run of the consumer reaches its send statement, completed or not. -/
def sendReached (tr : List ConsumeAction) : Nat := tr.count .send + tr.count .sendBlocked

/-- Number of stream results the consumer has read in a run. -/
def readCount (tr : List ConsumeAction) : Nat :=
  (tr.filter fun a => match a with
    | .recv _ => true
    | _ => false).length

/-- Whether a stream result ends the consumer loop: a synced message or an error. -/
def RecvResult.isFinal : RecvResult → Bool
  | .msg synced => synced
  | .err _ => true

/-- The condition of the one-shot signal: some message with `Synced = true`
comes at a position of the stream before which there is no error. -/
def SyncedBeforeError (evs : List RecvResult) : Prop :=
  ∃ i : Nat, evs[i]? = some (RecvResult.msg true) ∧
    ∀ j : Nat, j < i → ∀ code, evs[j]? ≠ some (RecvResult.err code)

/-! ## NewSPVWallet and its cleanup closure -/

/-- The `CreateWalletRequest` fields the harness sets. -/
structure CreateWalletRequest where
  Seed : Bytes
  PublicPassphrase : Bytes
  PrivatePassphrase : Bytes
  deriving DecidableEq

/-- The `SpvSyncRequest` fields the harness sets. -/
structure SpvSyncRequest where
  SpvConnect : List String
  DiscoverAccounts : Bool
  PrivatePassphrase : Bytes
  deriving DecidableEq

/-- An effect of `NewSPVWallet` or of its cleanup closure, in program order. -/
inductive Action where
  | removeAll (dir : String)
  | mkdir (dir : String)
  | createFile (file : String)
  | startProcess (exe : String) (args : List String)
  | readCerts (certFile keyFile : String) (seconds : Nat)
  | dial (ctx : Context) (addr : String)
  | createWallet (ctx : Context) (req : CreateWalletRequest)
  | spvSync (ctx : Context) (req : SpvSyncRequest)
  | goConsume
  | awaitSynced (seconds : Nat)
  | cancelCtx (ctx : Context)
  | cancelSync
  | logf (format : String) (args : List LogArg)
  | errorf (format : String) (args : List LogArg)
  | fatalf (format : String) (args : List LogArg)
  | signalInterrupt
  | goWait
  | awaitExit (seconds : Nat)
  | kill
  deriving DecidableEq

/-- Go `path.Join` on two clean, non-empty elements. -/
def pathJoin (dir file : String) : String := dir ++ "/" ++ file

/-- The constant `dataDir` of `NewSPVWallet`. -/
def dataDir : String := "dcrwallet-data"

/-- The constant `dcrwalletExe` of `NewSPVWallet`. -/
def dcrwalletExe : String := "dcrwallet"

/-- The constant `nodeName` of `NewSPVWallet`. -/
def nodeName : String := "wallet1"

/-- The seed `[]byte{31: 0xff}`: a slice of length 32 whose element 31 is 0xff. -/
def hdSeed : Bytes := (List.replicate 32 0).set 31 0xff

/-- The passphrase `[]byte("pass")`. -/
def privatePass : Bytes := "pass".toList.map Char.toNat

/-- The outcome of each external step of `NewSPVWallet`. -/
structure SetupEnv where
  /-- Error of `os.Create(logFilePath)`. -/
  createLogErr : Option Nat
  /-- Error of `cmd.Start()`. -/
  startErr : Option Nat
  /-- Last error of the certificate-reading closure when its 30 s run out. -/
  certErr : Option GoError
  /-- Error of `grpc.DialContext`. -/
  dialErr : Option Nat
  /-- Error of `loader.CreateWallet`. -/
  createWalletErr : Option Nat
  /-- Error of `loader.SpvSync`. -/
  spvSyncErr : Option Nat
  /-- What the sync stream delivers to the consumer. -/
  syncStream : List RecvResult
  /-- Whether the consumer reaches its send before the 60 s timer fires, that
  is, while the select is still receiving on `onSyncedChan`. -/
  sendBeforeTimer : Bool

/-- The function `NewSPVWallet` (remotewallet.go lines 51-234) up to its
return: the effects it performs, and whether it returned the connection and
the cleanup closure (`true`) or left through `t.Fatalf` (`false`).  The two
deferred `cancel()` calls run when the function is left. -/
def NewSPVWallet (spvAddrs : List String) (env : SetupEnv) : List Action × Bool :=
  let tlsCertPath := pathJoin dataDir "rpc.cert"
  let tlsKeyPath := pathJoin dataDir "rpc.key"
  let logFilePath := pathJoin dataDir "out.log"
  let port := 35555
  let addr := "127.0.0.1:" ++ toString port
  let args := [
    "--noinitialload",
    "--debuglevel=debug",
    "--simnet",
    "--nolegacyrpc",
    "--grpclisten=" ++ addr,
    "--appdata=" ++ dataDir,
    "--tlscurve=P-256",
    "--rpccert=" ++ tlsCertPath,
    "--rpckey=" ++ tlsKeyPath,
    "--clientcafile=" ++ tlsCertPath]
  let walletDir := Action.logf "Wallet dir: %s" [.val (.str dataDir)]
  let s1 := [Action.removeAll dataDir, .mkdir dataDir, .createFile logFilePath]
  match env.createLogErr with
  | some err =>
    (s1 ++ [walletDir, .fatalf "Unable to create dcrwallet log file: %v" [.err (.ext err)]], false)
  | none =>
  let s2 := s1 ++ [.startProcess dcrwalletExe args]
  match env.startErr with
  | some err =>
    (s2 ++ [walletDir, .fatalf "Unable to start dcrwallet: %v" [.err (.ext err)]], false)
  | none =>
  let s3 := s2 ++ [.readCerts tlsCertPath tlsKeyPath 30]
  match env.certErr with
  | some err =>
    (s3 ++ [walletDir, .fatalf "Unable to read ca cert file: %v" [.err err]], false)
  | none =>
  let ctxb := Context.background
  let ctx1 := Context.withTimeout ctxb 30
  let s4 := s3 ++ [.dial ctx1 addr]
  match env.dialErr with
  | some err =>
    (s4 ++ [walletDir, .fatalf "Unable to dial grpc: %v" [.err (.ext err)], .cancelCtx ctx1], false)
  | none =>
  let reqCreate : CreateWalletRequest :=
    { Seed := hdSeed, PublicPassphrase := privatePass, PrivatePassphrase := privatePass }
  let ctx2 := Context.withTimeout ctxb 30
  let deferred := [Action.cancelCtx ctx2, .cancelCtx ctx1]
  let s5 := s4 ++ [.createWallet ctx2 reqCreate]
  match env.createWalletErr with
  | some err =>
    (s5 ++ [walletDir, .fatalf "unable to create wallet: %v" [.err (.ext err)]] ++ deferred, false)
  | none =>
  let ctxSync := Context.withCancel Context.background
  let req : SpvSyncRequest :=
    { SpvConnect := spvAddrs, DiscoverAccounts := true, PrivatePassphrase := privatePass }
  let s6 := s5 ++ [.spvSync ctxSync req]
  match env.spvSyncErr with
  | some err =>
    (s6 ++ [.cancelSync, .fatalf "error running rpc sync: %v" [.err (.ext err)]] ++ deferred, false)
  | none =>
  let s7 := s6 ++ [.goConsume, .awaitSynced 60]
  if sendCount (consumeSyncMsgs env.sendBeforeTimer env.syncStream) ≠ 0 then
    (s7 ++ deferred, true)
  else
    (s7 ++ [.cancelSync, .fatalf "timeout waiting for initial sync to complete" []] ++ deferred,
      false)

/-- The outcome of each external step of the cleanup closure. -/
structure CleanupEnv where
  /-- Whether the wallet process has ended by the time the closure runs.  The
  closure cannot read this: `cmd.ProcessState` is set only when a `cmd.Wait`
  returns, and the only `cmd.Wait` is the one of the closure itself. -/
  hasEnded : Bool
  /-- Whether `cmd.ProcessState != nil`. -/
  processExited : Bool
  /-- Result of `t.Failed()`. -/
  testFailed : Bool
  /-- Error of `cmd.Process.Signal(os.Interrupt)`. -/
  signalErr : Option Nat
  /-- What the select sees first: `some r` when `cmd.Wait()` returns `r`
  within the 15 s, `none` when the timer fires. -/
  waitResult : Option (Option Nat)
  /-- Error of `cmd.Process.Kill()`. -/
  killErr : Option Nat

/-- The closure `cleanup` returned by `NewSPVWallet` (remotewallet.go lines 190-231). -/
def cleanup (env : CleanupEnv) : List Action :=
  Action.cancelSync ::
  if env.processExited then []
  else
    (if env.testFailed then [Action.logf "Wallet data at %s" [.val (.str dataDir)]] else []) ++
    Action.signalInterrupt ::
    match env.signalErr with
    | some err =>
      [.errorf "Error sending SIGINT to %s dcrwallet: %v" [.val (.str nodeName), .err (.ext err)]]
    | none =>
      Action.goWait :: Action.awaitExit 15 ::
      match env.waitResult with
      | some none => []
      | some (some err) =>
        [.errorf "%s dcrwallet exited with an error: %v" [.val (.str nodeName), .err (.ext err)]]
      | none =>
        Action.errorf "%s dcrwallet timed out after SIGINT" [.val (.str nodeName)] ::
        Action.kill ::
        match env.killErr with
        | some err =>
          [.errorf "Error killing %s dcrwallet: %v" [.val (.str nodeName), .err (.ext err)]]
        | none => []

/-- Whether an action is one of the three signalling or reaping steps on the process. -/
def Action.isProcessStep : Action → Bool
  | .signalInterrupt => true
  | .goWait => true
  | .awaitExit _ => true
  | .kill => true
  | _ => false

/-- Whether an action is a `t.Errorf` call. -/
def Action.isErrorf : Action → Bool
  | .errorf _ _ => true
  | _ => false

/-- Whether an action is a `t.Fatalf` call. -/
def Action.isFatalf : Action → Bool
  | .fatalf _ _ => true
  | _ => false

/-- Whether an action logs the wallet data directory. -/
def Action.logsDataDir : Action → Bool
  | .logf _ args => decide (LogArg.val (.str dataDir) ∈ args)
  | _ => false

/-- Whether the data directory is logged by an action that comes before the
first `t.Fatalf` of a trace. -/
def loggedBeforeFatal (tr : List Action) : Bool :=
  (tr.takeWhile fun a => !a.isFatalf).any Action.logsDataDir

/-- Whether an action is a request sent to the wallet loader service. -/
def Action.isLoaderRequest : Action → Bool
  | .createWallet _ _ => true
  | .spvSync _ _ => true
  | _ => false

/-- A run of `NewSPVWallet` in which every external step succeeds and the
stream reports one progress message and then the synced one. -/
def okEnv : SetupEnv :=
  { createLogErr := none, startErr := none, certErr := none, dialErr := none,
    createWalletErr := none, spvSyncErr := none,
    syncStream := [.msg false, .msg true], sendBeforeTimer := true }

/-- A run of the cleanup closure on a live process that does not take the
interrupt: the signal call fails, and the process would not exit by itself. -/
def signalFailsEnv : CleanupEnv :=
  { hasEnded := false, processExited := false, testFailed := false, signalErr := some 1,
    waitResult := none, killErr := none }

/-- A run of the cleanup closure on a live process that takes the interrupt,
does not exit within the grace period, and cannot be killed. -/
def killFailsEnv : CleanupEnv :=
  { hasEnded := false, processExited := false, testFailed := true, signalErr := none,
    waitResult := none, killErr := some 3 }

/-- A run of the cleanup closure on a live process that takes the interrupt
and exits with an error within the grace period. -/
def errorExitEnv : CleanupEnv :=
  { hasEnded := false, processExited := false, testFailed := false, signalErr := none,
    waitResult := some (some 2), killErr := none }

/-- The first run of the cleanup closure on a wallet that has exited on its
own with an error status: no `cmd.Wait` has returned yet, so
`cmd.ProcessState` is nil; the signal reaches the unreaped process and
`cmd.Wait` returns its status at once. -/
def selfExitedEnv : CleanupEnv :=
  { hasEnded := true, processExited := false, testFailed := false, signalErr := none,
    waitResult := some (some 1), killErr := none }

/-! ## The scripted scenarios of main_test.go -/

/-- The two full nodes of the scenarios. -/
inductive Miner where
  | miner1
  | miner2
  deriving DecidableEq

/-- One statement of a scenario. -/
inductive Step where
  | setPathToDCRD (exe : String)
  | removeAll (dir : String)
  | newHarness (m : Miner)
  | setUp (m : Miner) (createTestChain : Bool) (numMatureOutputs : Nat)
  | generate (m : Miner) (n : Nat)
  | connectNode
  | joinNodes
  | removeNode
  | sleep (ms : Nat)
  | log (msg : String)
  | newSPVWallet (spvAddrs : List Miner)
  | assertWalletSynced (m : Miner)
  deriving DecidableEq

/-- Whether a statement can end the test: its error goes to `orFatal`, which
calls `t.Fatalf` on a non-nil error, or it calls `t.Fatalf` itself. -/
def Step.canAbort : Step → Bool
  | .setPathToDCRD _ => false
  | .removeAll _ => false
  | .sleep _ => false
  | .log _ => false
  | _ => true

/-- The loop `for i := 0; i < n; i++ { body }`, unrolled. -/
def repeatSteps : Nat → List Step → List Step
  | 0, _ => []
  | n + 1, body => body ++ repeatSteps n body

/-- The statements both scenarios start with (main_test.go lines 22-60 and 104-142). -/
def minersCreated : List Step :=
  [ .setPathToDCRD "dcrd",
    .removeAll "miner1",
    .removeAll "miner2",
    .newHarness .miner1,
    .setUp .miner1 true 0,
    .generate .miner1 8,
    .newHarness .miner2,
    .setUp .miner2 false 0,
    .connectNode,
    .joinNodes,
    .sleep 1000,
    .generate .miner2 1,
    .sleep 1000,
    .log "Miners created" ]

/-- The scenario `TestSPVReorg` (main_test.go lines 21-101). -/
def TestSPVReorg : List Step :=
  minersCreated ++
  [ .newSPVWallet [.miner1],
    .assertWalletSynced .miner1,
    .assertWalletSynced .miner2,
    .log "Wallet created and synced",
    .removeNode,
    .generate .miner1 2,
    .generate .miner2 3,
    .assertWalletSynced .miner1,
    .connectNode,
    .joinNodes,
    .log "Caused reorg",
    .assertWalletSynced .miner1,
    .assertWalletSynced .miner2,
    .log "Success!" ]

/-- The scenario `TestSPVReorg2` (main_test.go lines 103-193). -/
def TestSPVReorg2 : List Step :=
  minersCreated ++
  [ .newSPVWallet [.miner1, .miner2],
    .assertWalletSynced .miner1,
    .assertWalletSynced .miner2,
    .log "Wallet created and synced",
    .removeNode,
    .sleep 1000,
    .generate .miner1 1,
    .assertWalletSynced .miner1,
    .generate .miner2 2,
    .assertWalletSynced .miner2,
    .sleep 1000 ] ++
  repeatSteps 10 [.generate .miner1 1, .sleep 10] ++
  [ .assertWalletSynced .miner1,
    .sleep 1000 ] ++
  repeatSteps 12 [.generate .miner2 1, .sleep 10] ++
  [ .assertWalletSynced .miner2,
    .log "Success!" ]

/-- What the scenario has done to the network so far. -/
structure Net where
  /-- A `RemoveNode` has returned and no later `JoinNodes` has. -/
  partitioned : Bool
  /-- Blocks generated by miner1 since the last `RemoveNode` (since the start before one). -/
  gen1 : Nat
  /-- Blocks generated by miner2 since the last `RemoveNode` (since the start before one). -/
  gen2 : Nat
  /-- A `ConnectNode` has returned without error since the last `RemoveNode`. -/
  connected : Bool
  /-- A `JoinNodes` has returned without error since the last `RemoveNode`. -/
  joined : Bool
  /-- A `RemoveNode` has returned without error at some point. -/
  everSplit : Bool
  /-- The SPV peers the wallet was created with. -/
  spvPeers : List Miner
  deriving DecidableEq

/-- The network before the first statement. -/
def Net.init : Net :=
  { partitioned := false, gen1 := 0, gen2 := 0, connected := false, joined := false,
    everSplit := false, spvPeers := [] }

/-- Length of a miner's chain above the fork point of the last partition. -/
def Net.gen (s : Net) : Miner → Nat
  | .miner1 => s.gen1
  | .miner2 => s.gen2

/-- The effect of a statement that returned without error. -/
def Net.step (s : Net) : Step → Net
  | .generate .miner1 n => { s with gen1 := s.gen1 + n }
  | .generate .miner2 n => { s with gen2 := s.gen2 + n }
  | .removeNode =>
    { s with partitioned := true, gen1 := 0, gen2 := 0, connected := false, joined := false,
             everSplit := true }
  | .connectNode => { s with connected := true }
  | .joinNodes => { s with joined := true, partitioned := false }
  | .newSPVWallet spvAddrs => { s with spvPeers := spvAddrs }
  | _ => s

/-- An `assertWalletSynced` call: the miner asserted against and the network at the call. -/
structure AssertCall where
  miner : Miner
  net : Net
  deriving DecidableEq

/-- Runs a scenario: `fails i` says whether statement `i` ends in an error; a
statement that can abort and fails ends the test there.  The result lists the
`assertWalletSynced` calls made, in order. -/
def runScript (fails : Nat → Bool) : Nat → Net → List Step → List AssertCall
  | _, _, [] => []
  | i, s, st :: rest =>
    let calls : List AssertCall :=
      match st with
      | .assertWalletSynced m => [{ miner := m, net := s }]
      | _ => []
    if st.canAbort && fails i then calls
    else calls ++ runScript fails (i + 1) (s.step st) rest

/-- The miner asserted against is an SPV peer of the wallet and no SPV peer has a longer chain. -/
def AssertCall.onLongest (c : AssertCall) : Bool :=
  decide (c.miner ∈ c.net.spvPeers) && c.net.spvPeers.all fun p =>
    decide (c.net.gen p ≤ c.net.gen c.miner)

/-- The miner asserted against is an SPV peer of the wallet and every other SPV
peer has a strictly shorter chain. -/
def AssertCall.onStrictlyLongest (c : AssertCall) : Bool :=
  decide (c.miner ∈ c.net.spvPeers) && c.net.spvPeers.all fun p =>
    decide (p = c.miner) || decide (c.net.gen p < c.net.gen c.miner)

/-- The chain lengths above the fork point at a call: the asserted miner's, then the other's. -/
def AssertCall.lengths (c : AssertCall) : Nat × Nat :=
  match c.miner with
  | .miner1 => (c.net.gen1, c.net.gen2)
  | .miner2 => (c.net.gen2, c.net.gen1)

/-- No statement fails. -/
def noFailure : Nat → Bool := fun _ => false

/-! ## The convergence poll -/

/-- When both queries answer, the poll returns nil exactly when the wallet
height equals the converted node height and the hashes are byte-equal. -/
theorem poll_ok_eq_none_iff (ctxb : Context) (walletBlock : BestBlockResponse)
    (minerBlockHash : Bytes) (minerBlockHeight : Int) :
    poll ctxb (.ok walletBlock) (.ok (minerBlockHash, minerBlockHeight)) = .done none ↔
      walletBlock.Height = uint32 minerBlockHeight ∧ walletBlock.Hash = minerBlockHash := by
  by_cases hh : walletBlock.Height = uint32 minerBlockHeight <;>
    by_cases hb : walletBlock.Hash = minerBlockHash <;>
    simp [poll, rpcCall, bytesEqual, hh, hb]

/-- The conversion is exact on node heights that fit 32 unsigned bits. -/
theorem uint32_of_inRange (v : Int) (h0 : 0 ≤ v) (h1 : v < 4294967296) :
    (uint32 v : Int) = v := by
  unfold uint32
  rw [Int.emod_eq_of_lt h0 h1]
  exact Int.toNat_of_nonneg h0

/-- For a node height that fits 32 unsigned bits the poll returns nil exactly
on equal heights and byte-equal hashes. -/
theorem poll_ok_eq_none_iff_of_inRange (ctxb : Context) (walletBlock : BestBlockResponse)
    (minerBlockHash : Bytes) (minerBlockHeight : Int)
    (h0 : 0 ≤ minerBlockHeight) (h1 : minerBlockHeight < 4294967296) :
    poll ctxb (.ok walletBlock) (.ok (minerBlockHash, minerBlockHeight)) = .done none ↔
      (walletBlock.Height : Int) = minerBlockHeight ∧ walletBlock.Hash = minerBlockHash := by
  rw [poll_ok_eq_none_iff]
  have h := uint32_of_inRange minerBlockHeight h0 h1
  constructor
  · rintro ⟨hh, hb⟩
    exact ⟨by rw [hh]; exact h, hb⟩
  · rintro ⟨hh, hb⟩
    refine ⟨?_, hb⟩
    have : (walletBlock.Height : Int) = (uint32 minerBlockHeight : Int) := by rw [h]; exact hh
    exact_mod_cast this

/-- For a node height that fits 32 unsigned bits, differing tips give an error
that carries both heights when the heights differ and both hashes when only
the hashes differ. -/
theorem poll_mismatch_error_of_inRange (ctxb : Context) (walletBlock : BestBlockResponse)
    (minerBlockHash : Bytes) (minerBlockHeight : Int)
    (h0 : 0 ≤ minerBlockHeight) (h1 : minerBlockHeight < 4294967296) :
    ((walletBlock.Height : Int) ≠ minerBlockHeight →
      poll ctxb (.ok walletBlock) (.ok (minerBlockHash, minerBlockHeight)) =
        .done (some (.errorf "unexpected block height -- got %d, want %d"
          [.u32 walletBlock.Height, .i64 minerBlockHeight]))) ∧
    ((walletBlock.Height : Int) = minerBlockHeight → walletBlock.Hash ≠ minerBlockHash →
      poll ctxb (.ok walletBlock) (.ok (minerBlockHash, minerBlockHeight)) =
        .done (some (.errorf "unexpected block hash -- got %s, want %s"
          [.bytes walletBlock.Hash, .hash minerBlockHash]))) := by
  have h := uint32_of_inRange minerBlockHeight h0 h1
  constructor
  · intro hne
    have hh : walletBlock.Height ≠ uint32 minerBlockHeight := by
      intro heq
      apply hne
      rw [heq]; exact h
    simp [poll, rpcCall, hh]
  · intro heq hb
    have hh : walletBlock.Height = uint32 minerBlockHeight := by
      have : (walletBlock.Height : Int) = (uint32 minerBlockHeight : Int) := by rw [h]; exact heq
      exact_mod_cast this
    simp [poll, rpcCall, bytesEqual, hh, hb]

/-- C1: when both queries answer, the poll of `assertWalletSynced` returns nil
only if the wallet hash equals the node hash byte for byte, and on equal
heights with differing hashes it returns the hash-mismatch error. -/
theorem poll_no_false_convergence_on_hash (ctxb : Context) (walletBlock : BestBlockResponse)
    (minerBlockHash : Bytes) (minerBlockHeight : Int)
    (hw : walletBlock.Height < 4294967296) :
    (poll ctxb (.ok walletBlock) (.ok (minerBlockHash, minerBlockHeight)) = .done none →
      walletBlock.Hash = minerBlockHash) ∧
    ((walletBlock.Height : Int) = minerBlockHeight → walletBlock.Hash ≠ minerBlockHash →
      poll ctxb (.ok walletBlock) (.ok (minerBlockHash, minerBlockHeight)) =
        .done (some (.errorf "unexpected block hash -- got %s, want %s"
          [.bytes walletBlock.Hash, .hash minerBlockHash]))) := by
  constructor
  · intro h
    exact ((poll_ok_eq_none_iff ctxb walletBlock minerBlockHash minerBlockHeight).1 h).2
  · intro heq hb
    have h0 : 0 ≤ minerBlockHeight := by rw [← heq]; exact Int.ofNat_nonneg _
    have h1 : minerBlockHeight < 4294967296 := by rw [← heq]; exact_mod_cast hw
    exact (poll_mismatch_error_of_inRange ctxb walletBlock minerBlockHash minerBlockHeight
      h0 h1).2 heq hb

/-- C1 at wallet tip (7, [1]) and node tip (7, [2]). -/
theorem poll_no_false_convergence_on_hash_witness :
    poll .background (.ok { Height := 7, Hash := [1] }) (.ok ([2], 7)) =
      .done (some (.errorf "unexpected block hash -- got %s, want %s"
        [.bytes [1], .hash [2]])) :=
  (poll_no_false_convergence_on_hash .background { Height := 7, Hash := [1] } [2] 7
    (by decide)).2 rfl (by decide)

/-- C2: at wallet height 5 and node height 4294967301 with equal hashes the
heights differ as integers, yet the poll returns nil and `assertWalletSynced`
passes: the node height is cut to its low 32 bits before the comparison. -/
theorem poll_truncated_height_reports_success :
    (5 : Int) ≠ 4294967301 ∧
    poll .background (.ok { Height := 5, Hash := [1] }) (.ok ([1], 4294967301)) = .done none ∧
    assertWalletSynced 1 (fun _ => .ok { Height := 5, Hash := [1] })
      (fun _ => .ok ([1], 4294967301)) = .passed := by
  refine ⟨by decide, ?_, ?_⟩
  · rw [poll_ok_eq_none_iff]; exact ⟨by decide, rfl⟩
  · have h : poll .background (.ok { Height := 5, Hash := [1] }) (.ok ([1], 4294967301)) =
        .done none := by
      rw [poll_ok_eq_none_iff]; exact ⟨by decide, rfl⟩
    simp [assertWalletSynced, waitNoError, h]

/-- C7: at wallet tip (5, [1]) and node tip (4294967301, [2]) the heights
differ, yet the error of the poll is the hash mismatch, which carries the two
hashes and neither height; the fatal message of `assertWalletSynced` carries
that error. -/
theorem poll_truncated_height_error_lacks_heights :
    (5 : Int) ≠ 4294967301 ∧
    poll .background (.ok { Height := 5, Hash := [1] }) (.ok ([2], 4294967301)) =
      .done (some (.errorf "unexpected block hash -- got %s, want %s"
        [.bytes [1], .hash [2]])) ∧
    assertWalletSynced 1 (fun _ => .ok { Height := 5, Hash := [1] })
      (fun _ => .ok ([2], 4294967301)) =
      .fatal "wallet not synced: %v" [.err (.errorf "unexpected block hash -- got %s, want %s"
        [.bytes [1], .hash [2]])] := by
  have hu : uint32 4294967301 = 5 := by decide
  have h : poll .background (.ok { Height := 5, Hash := [1] }) (.ok ([2], 4294967301)) =
      .done (some (.errorf "unexpected block hash -- got %s, want %s"
        [.bytes [1], .hash [2]])) := by
    simp [poll, rpcCall, bytesEqual, hu]
  refine ⟨by decide, h, ?_⟩
  simp [assertWalletSynced, waitNoError, h]

/-- Whatever `wait.NoError` hands back as an error, the fatal message of
`assertWalletSynced` carries it. -/
theorem assertWalletSynced_fatal_carries_error (polls : Nat)
    (wallet : Nat → Reply BestBlockResponse) (miner : Nat → Reply (Bytes × Int))
    (err : GoError)
    (h : waitNoError (fun i => poll .background (wallet i) (miner i)) polls 0 none =
      .done (some err)) :
    assertWalletSynced polls wallet miner = .fatal "wallet not synced: %v" [.err err] := by
  simp [assertWalletSynced, h]

/-- The retry loop blocks exactly when some call within the budget blocks and
every call before it returned an error. -/
theorem waitNoError_blocked_iff (f : Nat → PollOutcome) (polls i : Nat)
    (predErr : Option GoError) :
    waitNoError f polls i predErr = .blocked ↔
      ∃ k, k < polls ∧ f (i + k) = .blocked ∧ ∀ j, j < k → ∃ err, f (i + j) = .done (some err) := by
  induction polls generalizing i predErr with
  | zero => simp [waitNoError]
  | succ n ih =>
    unfold waitNoError
    cases hf : f i with
    | blocked =>
      simp only [true_iff]
      exact ⟨0, Nat.succ_pos n, by simpa using hf, by intro j hj; omega⟩
    | done r =>
      cases r with
      | none =>
        simp only [reduceCtorEq, false_iff]
        rintro ⟨k, _, hk, hpre⟩
        rcases Nat.eq_zero_or_pos k with h0 | hpos
        · subst h0; simp [hf] at hk
        · obtain ⟨err, he⟩ := hpre 0 hpos
          simp [hf] at he
      | some err =>
        simp only
        rw [ih]
        constructor
        · rintro ⟨k, hk, hb, hpre⟩
          refine ⟨k + 1, by omega, ?_, ?_⟩
          · rw [← hb]; congr 1; omega
          · intro j hj
            rcases Nat.eq_zero_or_pos j with h0 | hpos
            · subst h0; exact ⟨err, by simpa using hf⟩
            · obtain ⟨e, he⟩ := hpre (j - 1) (by omega)
              refine ⟨e, ?_⟩
              rw [← he]; congr 1; omega
        · rintro ⟨k, hk, hb, hpre⟩
          rcases Nat.eq_zero_or_pos k with h0 | hpos
          · subst h0; simp [hf] at hb
          · refine ⟨k - 1, by omega, ?_, ?_⟩
            · rw [← hb]; congr 1; omega
            · intro j hj
              obtain ⟨e, he⟩ := hpre (j + 1) (by omega)
              refine ⟨e, ?_⟩
              rw [← he]; congr 1; omega

/-- The poll blocks exactly when its context has no deadline and a query it
issues is never answered. -/
theorem poll_blocked_iff (ctxb : Context) (walletReply : Reply BestBlockResponse)
    (minerReply : Reply (Bytes × Int)) :
    poll ctxb walletReply minerReply = .blocked ↔
      ctxb.hasDeadline = false ∧
        (walletReply = .never ∨ ((∃ b, walletReply = .ok b) ∧ minerReply = .never)) := by
  cases hd : ctxb.hasDeadline <;> cases walletReply <;> cases minerReply <;>
    simp [poll, rpcCall, hd] <;> split_ifs <;> simp

/-- The function `assertWalletSynced` hangs exactly when, after polls that all
returned an error, a poll within the budget issues a query that is never answered. -/
theorem assertWalletSynced_hung_iff (polls : Nat)
    (wallet : Nat → Reply BestBlockResponse) (miner : Nat → Reply (Bytes × Int)) :
    assertWalletSynced polls wallet miner = .hung ↔
      ∃ k, k < polls ∧
        (wallet k = .never ∨ ((∃ b, wallet k = .ok b) ∧ miner k = .never)) ∧
        ∀ j, j < k → ∃ err, poll .background (wallet j) (miner j) = .done (some err) := by
  have key : assertWalletSynced polls wallet miner = .hung ↔
      waitNoError (fun i => poll .background (wallet i) (miner i)) polls 0 none = .blocked := by
    simp only [assertWalletSynced]
    split <;> simp_all
  rw [key, waitNoError_blocked_iff]
  simp only [Nat.zero_add, poll_blocked_iff, Context.hasDeadline, true_and]

/-- The clocked loop never uses up its fuel when the fuel covers the timeout. -/
theorem waitNoErrorClock_fuel (f : Nat → PollOutcome) (ms : Nat → Nat) (timeout : Nat)
    (fuel now i : Nat) (predErr : Option GoError)
    (hfuel : timeout ≤ now + fuel * pollInterval) (hpos : 0 < fuel) :
    ∃ r, waitNoErrorClock f ms timeout fuel now i predErr = some r := by
  induction fuel generalizing now i predErr with
  | zero => omega
  | succ n ih =>
    unfold waitNoErrorClock
    by_cases hto : timeout ≤ now + pollInterval
    · exact ⟨_, if_pos hto⟩
    · rw [if_neg hto]
      cases hf : f i with
      | blocked => exact ⟨_, rfl⟩
      | done r =>
        cases r with
        | none => exact ⟨_, rfl⟩
        | some err =>
          simp only
          have hn : 0 < n := by
            rcases Nat.eq_zero_or_pos n with h0 | h
            · subst h0; omega
            · exact h
          exact ih (now + pollInterval + ms i) (i + 1) (some err)
            (by rw [Nat.succ_mul] at hfuel; omega) hn

/-- The clocked loop returns what the loop counted in polls returns, for the
number of polls that were started before the timeout. -/
theorem waitNoErrorClock_untimed (f : Nat → PollOutcome) (ms : Nat → Nat) (timeout : Nat)
    (fuel now i : Nat) (predErr : Option GoError) (o : PollOutcome) (t : Nat)
    (h : waitNoErrorClock f ms timeout fuel now i predErr = some (o, t)) :
    ∃ polls, polls ≤ fuel ∧ o = waitNoError f polls i predErr := by
  induction fuel generalizing now i predErr with
  | zero => simp [waitNoErrorClock] at h
  | succ n ih =>
    unfold waitNoErrorClock at h
    by_cases hto : timeout ≤ now + pollInterval
    · rw [if_pos hto] at h
      simp only [Option.some.injEq, Prod.mk.injEq] at h
      exact ⟨0, Nat.zero_le _, by rw [← h.1]; rfl⟩
    · rw [if_neg hto] at h
      cases hf : f i with
      | blocked =>
        rw [hf] at h
        simp only [Option.some.injEq, Prod.mk.injEq] at h
        exact ⟨1, by omega, by rw [← h.1]; simp [waitNoError, hf]⟩
      | done r =>
        cases r with
        | none =>
          rw [hf] at h
          simp only [Option.some.injEq, Prod.mk.injEq] at h
          exact ⟨1, by omega, by rw [← h.1]; simp [waitNoError, hf]⟩
        | some err =>
          rw [hf] at h
          simp only at h
          obtain ⟨polls, hle, ho⟩ := ih _ _ _ h
          exact ⟨polls + 1, by omega, by rw [ho]; simp [waitNoError, hf]⟩

/-- When no call of the polled function blocks and each takes at most `D`
milliseconds, the clocked loop ends unblocked before the timeout plus one poll
interval plus `D`. -/
theorem waitNoErrorClock_bound (f : Nat → PollOutcome) (ms : Nat → Nat) (timeout D : Nat)
    (hf : ∀ k, f k ≠ .blocked) (hD : ∀ k, ms k ≤ D)
    (fuel now i : Nat) (predErr : Option GoError) (o : PollOutcome) (t : Nat)
    (hnow : now < timeout + D)
    (h : waitNoErrorClock f ms timeout fuel now i predErr = some (o, t)) :
    o ≠ .blocked ∧ t < timeout + pollInterval + D := by
  induction fuel generalizing now i predErr with
  | zero => simp [waitNoErrorClock] at h
  | succ n ih =>
    unfold waitNoErrorClock at h
    by_cases hto : timeout ≤ now + pollInterval
    · rw [if_pos hto] at h
      simp only [Option.some.injEq, Prod.mk.injEq] at h
      refine ⟨by rw [← h.1]; simp, by omega⟩
    · rw [if_neg hto] at h
      have hk := hD i
      cases hfi : f i with
      | blocked => exact absurd hfi (hf i)
      | done r =>
        cases r with
        | none =>
          rw [hfi] at h
          simp only [Option.some.injEq, Prod.mk.injEq] at h
          refine ⟨by rw [← h.1]; simp, by omega⟩
        | some err =>
          rw [hfi] at h
          simp only at h
          exact ih _ _ _ (by omega) h

/-- What the clocked `assertWalletSynced` returns, read off the clocked loop. -/
theorem assertWalletSyncedTimed_eq (wallet : Nat → Reply BestBlockResponse)
    (miner : Nat → Reply (Bytes × Int)) (walletMs minerMs : Nat → Nat)
    (o : PollOutcome) (t : Nat)
    (h : waitNoErrorClock (fun i => poll .background (wallet i) (miner i))
      (fun i => pollMs (wallet i) (walletMs i) (minerMs i))
      syncTimeout (syncTimeout / pollInterval + 1) 0 0 none = some (o, t)) :
    assertWalletSyncedTimed wallet miner walletMs minerMs = some (leaveTest o, t) := by
  simp only [assertWalletSyncedTimed, h]

/-- The function `assertWalletSynced` counted in polls leaves the test the way
its retry loop ends. -/
theorem assertWalletSynced_eq_leaveTest (polls : Nat)
    (wallet : Nat → Reply BestBlockResponse) (miner : Nat → Reply (Bytes × Int)) :
    assertWalletSynced polls wallet miner =
      leaveTest (waitNoError (fun i => poll .background (wallet i) (miner i)) polls 0 none) := by
  simp only [assertWalletSynced]
  split <;> simp_all [leaveTest]

/-- A wallet that answers `BestBlock` only after 60 s makes the clocked
`assertWalletSynced` end after 60.02 s, past its 10 s timeout; a wallet that
never answers makes it hang from its first poll on. -/
theorem assertWalletSyncedTimed_late_or_never :
    assertWalletSyncedTimed (fun _ => .ok { Height := 7, Hash := [1] })
      (fun _ => .ok ([1], 7)) (fun _ => 60000) (fun _ => 0) = some (.passed, 60020) ∧
    syncTimeout < 60020 ∧
    assertWalletSyncedTimed (fun _ => .never) (fun _ => .ok ([1], 7)) (fun _ => 0)
      (fun _ => 0) = some (.hung, 20) := by
  refine ⟨?_, by decide, ?_⟩
  · have hp : poll .background (.ok { Height := 7, Hash := [1] }) (.ok ([1], 7)) =
        .done none := by
      rw [poll_ok_eq_none_iff]; exact ⟨by decide, rfl⟩
    have h500 : syncTimeout / pollInterval + 1 = 500 + 1 := by decide
    rw [assertWalletSyncedTimed_eq _ _ _ _ (.done none) 60020
      (by rw [h500]; simp [waitNoErrorClock, hp, pollMs, pollInterval, syncTimeout])]
    rfl
  · have hp : poll .background (.never : Reply BestBlockResponse) (.ok ([1], 7)) =
        .blocked := by
      simp [poll, rpcCall, Context.hasDeadline]
    have h500 : syncTimeout / pollInterval + 1 = 500 + 1 := by decide
    rw [assertWalletSyncedTimed_eq _ _ _ _ .blocked 20
      (by rw [h500]; simp [waitNoErrorClock, hp, pollInterval, syncTimeout])]
    rfl

/-- C8, as the code has it: `assertWalletSynced` always reaches an outcome in
the model; when every query it issues is answered or fails it leaves the test
(passing or through `t.Fatalf`), no later than its 10 s timeout plus one poll
interval plus the longest time one poll takes; it hangs only when a query is
never answered, and does so when the first wallet query is not, since the
queries run under the background context, which has no deadline, and the
timeout is looked at only between polls; its outcome is that of the loop
counted in polls. -/
theorem assertWalletSynced_ends_when_answered (wallet : Nat → Reply BestBlockResponse)
    (miner : Nat → Reply (Bytes × Int)) (walletMs minerMs : Nat → Nat) :
    (∃ r, assertWalletSyncedTimed wallet miner walletMs minerMs = some r) ∧
    ((∀ i, wallet i ≠ .never ∧ miner i ≠ .never) →
      ∀ D, (∀ i, pollMs (wallet i) (walletMs i) (minerMs i) ≤ D) →
      ∃ o t, assertWalletSyncedTimed wallet miner walletMs minerMs = some (o, t) ∧
        o ≠ .hung ∧ t < syncTimeout + pollInterval + D) ∧
    (∀ t, assertWalletSyncedTimed wallet miner walletMs minerMs = some (.hung, t) →
      ∃ k, wallet k = .never ∨ ((∃ b, wallet k = .ok b) ∧ miner k = .never)) ∧
    (wallet 0 = .never →
      assertWalletSyncedTimed wallet miner walletMs minerMs = some (.hung, pollInterval)) ∧
    (∀ o t, assertWalletSyncedTimed wallet miner walletMs minerMs = some (o, t) →
      ∃ polls, polls ≤ syncTimeout / pollInterval + 1 ∧
        o = assertWalletSynced polls wallet miner) := by
  obtain ⟨⟨o, t⟩, hr⟩ := waitNoErrorClock_fuel (fun i => poll .background (wallet i) (miner i))
    (fun i => pollMs (wallet i) (walletMs i) (minerMs i)) syncTimeout
    (syncTimeout / pollInterval + 1) 0 0 none (by decide) (by decide)
  have heq := assertWalletSyncedTimed_eq wallet miner walletMs minerMs o t hr
  obtain ⟨polls, hle, ho⟩ := waitNoErrorClock_untimed _ _ _ _ _ _ _ o t hr
  have hlink : leaveTest o = assertWalletSynced polls wallet miner := by
    rw [assertWalletSynced_eq_leaveTest, ← ho]
  have hhung : ∀ t2, assertWalletSyncedTimed wallet miner walletMs minerMs =
      some (.hung, t2) →
      ∃ k, wallet k = .never ∨ ((∃ b, wallet k = .ok b) ∧ miner k = .never) := by
    intro t2 h2
    rw [heq, hlink] at h2
    simp only [Option.some.injEq, Prod.mk.injEq] at h2
    obtain ⟨k, _, hk, _⟩ := (assertWalletSynced_hung_iff polls wallet miner).1 h2.1
    exact ⟨k, hk⟩
  refine ⟨⟨_, heq⟩, ?_, hhung, ?_, ?_⟩
  · intro hans D hD
    have hf : ∀ k, (fun i => poll .background (wallet i) (miner i)) k ≠ .blocked := by
      intro k hb
      rcases ((poll_blocked_iff _ _ _).1 hb).2 with hw | ⟨_, hm⟩
      · exact (hans k).1 hw
      · exact (hans k).2 hm
    obtain ⟨hnb, hlt⟩ := waitNoErrorClock_bound _ _ syncTimeout D hf hD _ _ _ _ o t
      (by have : 0 < syncTimeout := by decide
          omega) hr
    refine ⟨_, t, heq, ?_, hlt⟩
    cases o with
    | blocked => exact absurd rfl hnb
    | done r => cases r <;> simp [leaveTest]
  · intro hw
    have hp : poll .background (wallet 0) (miner 0) = .blocked :=
      (poll_blocked_iff _ _ _).2 ⟨rfl, Or.inl hw⟩
    have h500 : syncTimeout / pollInterval + 1 = 500 + 1 := by decide
    have hr2 : waitNoErrorClock (fun i => poll .background (wallet i) (miner i))
        (fun i => pollMs (wallet i) (walletMs i) (minerMs i))
        syncTimeout (syncTimeout / pollInterval + 1) 0 0 none =
        some (.blocked, pollInterval) := by
      rw [h500]
      simp [waitNoErrorClock, hp, pollInterval, syncTimeout]
    exact assertWalletSyncedTimed_eq wallet miner walletMs minerMs .blocked pollInterval hr2
  · intro o2 t2 h2
    rw [heq] at h2
    simp only [Option.some.injEq, Prod.mk.injEq] at h2
    exact ⟨polls, hle, by rw [← h2.1, hlink]⟩

/-- C8 on a wallet and a node that agree at (7, [1]) and each answer in 5 ms. -/
theorem assertWalletSynced_ends_when_answered_witness :
    ∃ o t, assertWalletSyncedTimed (fun _ => .ok { Height := 7, Hash := [1] })
        (fun _ => .ok ([1], 7)) (fun _ => 5) (fun _ => 5) = some (o, t) ∧
      o ≠ .hung ∧ t < syncTimeout + pollInterval + 10 :=
  (assertWalletSynced_ends_when_answered (fun _ => .ok { Height := 7, Hash := [1] })
    (fun _ => .ok ([1], 7)) (fun _ => 5) (fun _ => 5)).2.1
    (by intro i; simp) 10 (by intro i; simp [pollMs])

/-- C8 as stated fails: a wallet endpoint that never answers `BestBlock` makes
`assertWalletSynced` hang on its first poll, whatever the timeout, and the
context the query runs under has no deadline. -/
theorem assertWalletSynced_hangs_on_silent_wallet :
    assertWalletSynced 500 (fun _ => .never) (fun _ => .ok ([1], 7)) = .hung ∧
    Context.background.hasDeadline = false := by
  refine ⟨?_, rfl⟩
  rw [assertWalletSynced_hung_iff]
  exact ⟨0, by decide, Or.inl rfl, by intro j hj; omega⟩

/-! ## The sync-stream consumer -/

theorem syncedBeforeError_nil : ¬ SyncedBeforeError [] := by
  rintro ⟨i, h, _⟩
  simp at h

theorem syncedBeforeError_err (code : Nat) (rest : List RecvResult) :
    ¬ SyncedBeforeError (.err code :: rest) := by
  rintro ⟨i, h, hpre⟩
  rcases Nat.eq_zero_or_pos i with h0 | hpos
  · subst h0; simp at h
  · exact hpre 0 hpos code (by simp)

theorem syncedBeforeError_synced (rest : List RecvResult) :
    SyncedBeforeError (.msg true :: rest) :=
  ⟨0, by simp, by intro j hj; omega⟩

theorem syncedBeforeError_progress (rest : List RecvResult) :
    SyncedBeforeError (.msg false :: rest) ↔ SyncedBeforeError rest := by
  constructor
  · rintro ⟨i, h, hpre⟩
    rcases Nat.eq_zero_or_pos i with h0 | hpos
    · subst h0; simp at h
    · obtain ⟨k, rfl⟩ : ∃ k, i = k + 1 := ⟨i - 1, by omega⟩
      refine ⟨k, by simpa using h, ?_⟩
      intro j hj code
      have := hpre (j + 1) (by omega) code
      simpa using this
  · rintro ⟨i, h, hpre⟩
    refine ⟨i + 1, by simpa using h, ?_⟩
    intro j hj code
    rcases Nat.eq_zero_or_pos j with h0 | hpos
    · subst h0; simp
    · obtain ⟨k, rfl⟩ : ∃ k, j = k + 1 := ⟨j - 1, by omega⟩
      have := hpre k (by omega) code
      simpa using this

theorem consumeSyncMsgs_progress (receiver : Bool) (rest : List RecvResult) :
    consumeSyncMsgs receiver (.msg false :: rest) =
      .recv (.msg false) :: consumeSyncMsgs receiver rest := by
  simp [consumeSyncMsgs]

/-- The send statement is reached once when a synced message comes before the
first error and never otherwise, whether or not a receiver is left. -/
theorem sendReached_consume (receiver : Bool) (evs : List RecvResult) :
    (SyncedBeforeError evs → sendReached (consumeSyncMsgs receiver evs) = 1) ∧
    (¬ SyncedBeforeError evs → sendReached (consumeSyncMsgs receiver evs) = 0) := by
  induction evs with
  | nil => simp [consumeSyncMsgs, sendReached, syncedBeforeError_nil]
  | cons e rest ih =>
    cases e with
    | err code => simp [consumeSyncMsgs, sendReached, syncedBeforeError_err]
    | msg synced =>
      cases synced with
      | true => cases receiver <;> simp [consumeSyncMsgs, sendReached, syncedBeforeError_synced]
      | false =>
        rw [consumeSyncMsgs_progress, syncedBeforeError_progress]
        simpa [sendReached] using ih

/-- With a receiver every reached send completes; without one none does. -/
theorem sendCount_consume (receiver : Bool) (evs : List RecvResult) :
    sendCount (consumeSyncMsgs receiver evs) =
      if receiver then sendReached (consumeSyncMsgs receiver evs) else 0 := by
  induction evs with
  | nil => simp [consumeSyncMsgs, sendCount, sendReached]
  | cons e rest ih =>
    cases e with
    | err code => simp [consumeSyncMsgs, sendCount, sendReached]
    | msg synced =>
      cases synced with
      | true => cases receiver <;> simp [consumeSyncMsgs, sendCount, sendReached]
      | false =>
        rw [consumeSyncMsgs_progress]
        cases receiver <;> simpa [sendCount, sendReached] using ih

theorem consumeSyncMsgs_discards (receiver : Bool) (pre post : List RecvResult)
    (hpre : ∀ e, e ∈ pre → e = .msg false) :
    consumeSyncMsgs receiver (pre ++ post) =
      pre.map .recv ++ consumeSyncMsgs receiver post := by
  induction pre with
  | nil => simp
  | cons e pre ih =>
    have he : e = .msg false := hpre e (by simp)
    subst he
    have ih2 := ih (fun e he => hpre e (by simp [he]))
    simp only [List.cons_append, List.map_cons]
    rw [consumeSyncMsgs_progress, ih2]

/-- Once a synced message or an error has been read nothing past it is read,
and the run ends in the return, or in the blocked send when the message was
synced and no receiver is left. -/
theorem consumeSyncMsgs_stops_at_final (receiver : Bool) (evs : List RecvResult) (i : Nat)
    (e : RecvResult) (hi : evs[i]? = some e) (he : e.isFinal = true) :
    readCount (consumeSyncMsgs receiver evs) ≤ i + 1 ∧
    (receiver = true ∨ ¬ SyncedBeforeError evs →
      (consumeSyncMsgs receiver evs).getLast? = some .ret) ∧
    (receiver = false → SyncedBeforeError evs →
      (consumeSyncMsgs receiver evs).getLast? = some .sendBlocked ∧
      ConsumeAction.ret ∉ consumeSyncMsgs receiver evs) := by
  induction evs generalizing i with
  | nil => simp at hi
  | cons x rest ih =>
    cases x with
    | err code => simp [consumeSyncMsgs, readCount, syncedBeforeError_err]
    | msg synced =>
      cases synced with
      | true =>
        cases receiver <;> simp [consumeSyncMsgs, readCount, syncedBeforeError_synced]
      | false =>
        rcases Nat.eq_zero_or_pos i with h0 | hpos
        · subst h0
          simp at hi
          subst hi
          simp [RecvResult.isFinal] at he
        · obtain ⟨k, rfl⟩ : ∃ k, i = k + 1 := ⟨i - 1, by omega⟩
          have hk : rest[k]? = some e := by simpa using hi
          obtain ⟨h1, h2, h3⟩ := ih k hk
          rw [consumeSyncMsgs_progress, syncedBeforeError_progress]
          refine ⟨?_, ?_, ?_⟩
          · simp only [readCount, List.filter_cons_of_pos, List.length_cons] at h1 ⊢
            omega
          · intro h
            rw [List.getLast?_cons, h2 h]
            rfl
          · intro hr hs
            obtain ⟨h4, h5⟩ := h3 hr hs
            constructor
            · rw [List.getLast?_cons, h4]
              rfl
            · simpa using h5

/-- C3 as stated fails: on a stream whose first message is synced, with the
receiving select gone, `consumeSyncMsgs` completes no send and never returns;
it stays blocked in the send on the unbuffered channel. -/
theorem consumeSyncMsgs_blocks_without_receiver :
    SyncedBeforeError [.msg true] ∧
    consumeSyncMsgs false [.msg true] = [.recv (.msg true), .sendBlocked] ∧
    sendCount (consumeSyncMsgs false [.msg true]) = 0 ∧
    ConsumeAction.ret ∉ consumeSyncMsgs false [.msg true] := by
  refine ⟨syncedBeforeError_synced [], ?_, ?_, ?_⟩ <;> simp [consumeSyncMsgs, sendCount]

/-- C3, as the code has it: on every finite sequence of stream results
`consumeSyncMsgs` reaches its send on the channel exactly once when a synced
message comes before the first error and never otherwise; with a receiver
waiting that send completes, so exactly one value is sent, and without one
nothing is sent and the function stays blocked in the send; it never sends
more than once; messages that are not synced are read and dropped; and once a
synced message or an error has been read nothing past it is read, and the
function returns unless it is blocked in the send. -/
theorem consumeSyncMsgs_one_shot (receiver : Bool) (evs : List RecvResult) :
    (SyncedBeforeError evs → sendReached (consumeSyncMsgs receiver evs) = 1) ∧
    (¬ SyncedBeforeError evs → sendReached (consumeSyncMsgs receiver evs) = 0) ∧
    (SyncedBeforeError evs → receiver = true →
      sendCount (consumeSyncMsgs receiver evs) = 1) ∧
    (¬ SyncedBeforeError evs ∨ receiver = false →
      sendCount (consumeSyncMsgs receiver evs) = 0) ∧
    sendCount (consumeSyncMsgs receiver evs) ≤ 1 ∧
    (∀ pre post, evs = pre ++ post → (∀ e, e ∈ pre → e = .msg false) →
      consumeSyncMsgs receiver evs = pre.map .recv ++ consumeSyncMsgs receiver post) ∧
    (∀ (i : Nat) (e : RecvResult), evs[i]? = some e → e.isFinal = true →
      readCount (consumeSyncMsgs receiver evs) ≤ i + 1 ∧
      (receiver = true ∨ ¬ SyncedBeforeError evs →
        (consumeSyncMsgs receiver evs).getLast? = some .ret) ∧
      (receiver = false → SyncedBeforeError evs →
        (consumeSyncMsgs receiver evs).getLast? = some .sendBlocked ∧
        ConsumeAction.ret ∉ consumeSyncMsgs receiver evs)) := by
  have hreach := sendReached_consume receiver evs
  have hcount := sendCount_consume receiver evs
  refine ⟨hreach.1, hreach.2, ?_, ?_, ?_, ?_, ?_⟩
  · intro hs hr
    rw [hcount, if_pos hr]
    exact hreach.1 hs
  · intro h
    rw [hcount]
    rcases h with hs | hr
    · rw [hreach.2 hs]; simp
    · simp [hr]
  · rw [hcount]
    by_cases hs : SyncedBeforeError evs
    · rw [hreach.1 hs]; split <;> omega
    · rw [hreach.2 hs]; split <;> omega
  · intro pre post hevs hpre
    subst hevs
    exact consumeSyncMsgs_discards receiver pre post hpre
  · intro i e hi he
    exact consumeSyncMsgs_stops_at_final receiver evs i e hi he

/-- C3 on the stream progress, progress, synced, error, synced with a receiver
waiting: one send, three reads, and the function has returned. -/
theorem consumeSyncMsgs_one_shot_witness :
    sendCount (consumeSyncMsgs true
      [.msg false, .msg false, .msg true, .err 1, .msg true]) = 1 ∧
    readCount (consumeSyncMsgs true
      [.msg false, .msg false, .msg true, .err 1, .msg true]) ≤ 2 + 1 ∧
    (consumeSyncMsgs true
      [.msg false, .msg false, .msg true, .err 1, .msg true]).getLast? = some .ret :=
  have h := consumeSyncMsgs_one_shot true [.msg false, .msg false, .msg true, .err 1, .msg true]
  have hs : SyncedBeforeError [.msg false, .msg false, .msg true, .err 1, .msg true] :=
    ⟨2, by simp, by
      intro j hj code
      interval_cases j <;> simp⟩
  have hf := h.2.2.2.2.2.2 2 (.msg true) (by simp) rfl
  ⟨h.2.2.1 hs rfl, hf.1, hf.2.1 (Or.inl rfl)⟩

/-! ## The cleanup closure -/

/-- C4 as stated fails: on a live process whose interrupt cannot be delivered
the cleanup reports the error and returns; it neither waits for the process
nor kills it. -/
theorem cleanup_returns_after_failed_interrupt :
    cleanup signalFailsEnv =
      [.cancelSync, .signalInterrupt,
        .errorf "Error sending SIGINT to %s dcrwallet: %v"
          [.val (.str "wallet1"), .err (.ext 1)]] ∧
    Action.goWait ∉ cleanup signalFailsEnv ∧
    Action.awaitExit 15 ∉ cleanup signalFailsEnv ∧
    Action.kill ∉ cleanup signalFailsEnv := by
  simp [cleanup, signalFailsEnv, nodeName]

/-- C4, as the code has it: on a live process no step of the cleanup aborts
the test; once the interrupt is delivered the exit is awaited, an error exit
and an expired grace period are reported with `t.Errorf`, on expiry the kill
is attempted and a failed kill reported; when the interrupt cannot be
delivered that error is reported and no further step on the process is made. -/
theorem cleanup_best_effort_after_interrupt (env : CleanupEnv)
    (hlive : env.processExited = false) :
    (∀ a, a ∈ cleanup env → a.isFatalf = false) ∧
    (∀ err, env.signalErr = some err →
      (cleanup env).filter Action.isProcessStep = [.signalInterrupt] ∧
      Action.errorf "Error sending SIGINT to %s dcrwallet: %v"
        [.val (.str nodeName), .err (.ext err)] ∈ cleanup env) ∧
    (env.signalErr = none →
      Action.goWait ∈ cleanup env ∧ Action.awaitExit 15 ∈ cleanup env ∧
      (∀ err, env.waitResult = some (some err) →
        Action.errorf "%s dcrwallet exited with an error: %v"
          [.val (.str nodeName), .err (.ext err)] ∈ cleanup env) ∧
      (env.waitResult = none →
        Action.errorf "%s dcrwallet timed out after SIGINT" [.val (.str nodeName)] ∈
          cleanup env ∧
        Action.kill ∈ cleanup env ∧
        ∀ err, env.killErr = some err →
          Action.errorf "Error killing %s dcrwallet: %v"
            [.val (.str nodeName), .err (.ext err)] ∈ cleanup env)) := by
  obtain ⟨he, pe, tf, se, wr, ke⟩ := env
  simp only at hlive
  subst hlive
  cases tf <;> cases se <;> rcases wr with _ | _ | _ <;> cases ke <;>
    simp [cleanup, Action.isFatalf, Action.isProcessStep]

/-- C4 on a live process that ignores a delivered interrupt and whose kill fails. -/
theorem cleanup_best_effort_after_interrupt_witness :
    Action.kill ∈ cleanup killFailsEnv ∧
    Action.errorf "Error killing %s dcrwallet: %v" [.val (.str nodeName), .err (.ext 3)] ∈
      cleanup killFailsEnv :=
  have h := ((cleanup_best_effort_after_interrupt killFailsEnv rfl).2.2 rfl).2.2.2 rfl
  ⟨h.2.1, h.2.2 3 rfl⟩

/-- C5 as stated fails: a wallet that has exited on its own before the first
run of the cleanup still has a nil `cmd.ProcessState`, and the cleanup sends
it the interrupt and goes on to wait for it. -/
theorem cleanup_signals_unreaped_exited_process :
    selfExitedEnv.hasEnded = true ∧
    Action.signalInterrupt ∈ cleanup selfExitedEnv ∧
    cleanup selfExitedEnv =
      [.cancelSync, .signalInterrupt, .goWait, .awaitExit 15,
        .errorf "%s dcrwallet exited with an error: %v"
          [.val (.str "wallet1"), .err (.ext 1)]] := by
  simp [cleanup, selfExitedEnv, nodeName]

/-- C5, as the code has it: the cleanup cancels the sync session before
anything else; it makes no step on the process when `cmd.ProcessState` is set
and otherwise sends the interrupt, whether or not the process has ended by
itself; after an interrupt that could not be delivered it makes no further
step, after a delivered one it waits, and it kills, last, exactly when the
grace period ran out; an error exit or an expired grace period leaves a
`t.Errorf` in the run, and no step is a `t.Fatalf`. -/
theorem cleanup_action_sequence (env : CleanupEnv) :
    (∃ rest, cleanup env = Action.cancelSync :: rest) ∧
    (env.processExited = true → cleanup env = [.cancelSync]) ∧
    (env.processExited = false → Action.signalInterrupt ∈ cleanup env) ∧
    (env.processExited = false → env.signalErr ≠ none →
      (cleanup env).filter Action.isProcessStep = [.signalInterrupt]) ∧
    (env.processExited = false → env.signalErr = none → env.waitResult ≠ none →
      (cleanup env).filter Action.isProcessStep =
        [.signalInterrupt, .goWait, .awaitExit 15]) ∧
    (env.processExited = false → env.signalErr = none → env.waitResult = none →
      (cleanup env).filter Action.isProcessStep =
        [.signalInterrupt, .goWait, .awaitExit 15, .kill]) ∧
    (Action.kill ∈ cleanup env ↔
      env.processExited = false ∧ env.signalErr = none ∧ env.waitResult = none) ∧
    (env.processExited = false → env.waitResult ≠ some none →
      ∃ a, a ∈ cleanup env ∧ a.isErrorf = true) ∧
    (env.processExited = false → env.signalErr = none →
      ((∃ a, a ∈ cleanup env ∧ a.isErrorf = true) ↔ env.waitResult ≠ some none)) ∧
    (∀ a, a ∈ cleanup env → a.isFatalf = false) := by
  obtain ⟨he, pe, tf, se, wr, ke⟩ := env
  cases pe <;> cases tf <;> cases se <;> rcases wr with _ | _ | _ <;> cases ke <;>
    simp [cleanup, Action.isFatalf, Action.isErrorf, Action.isProcessStep]

/-- C5 on a live process that exits with an error within the grace period. -/
theorem cleanup_action_sequence_witness :
    Action.signalInterrupt ∈ cleanup errorExitEnv ∧
    (cleanup errorExitEnv).filter Action.isProcessStep =
      [.signalInterrupt, .goWait, .awaitExit 15] ∧
    ∃ a, a ∈ cleanup errorExitEnv ∧ a.isErrorf = true :=
  have h := cleanup_action_sequence errorExitEnv
  ⟨h.2.2.1 rfl, h.2.2.2.2.1 rfl rfl (by simp [errorExitEnv]),
    h.2.2.2.2.2.2.2.1 rfl (by simp [errorExitEnv])⟩

/-! ## NewSPVWallet -/

theorem hdSeed_eq : hdSeed = List.replicate 31 0 ++ [255] := by decide

theorem privatePass_eq : privatePass = [112, 97, 115, 115] := by decide

/-- A failure of one of the first five fatal steps (log file, process start,
certificate read, dial, `CreateWallet`) logs the data directory before the
`t.Fatalf`. -/
theorem NewSPVWallet_logs_dir_on_early_failure (spvAddrs : List String) (env : SetupEnv)
    (h : env.createLogErr ≠ none ∨ env.startErr ≠ none ∨ env.certErr ≠ none ∨
      env.dialErr ≠ none ∨ env.createWalletErr ≠ none) :
    (NewSPVWallet spvAddrs env).2 = false ∧
      loggedBeforeFatal (NewSPVWallet spvAddrs env).1 = true := by
  obtain ⟨e1, e2, e3, e4, e5, e6, st, sb⟩ := env
  cases e1 <;> cases e2 <;> cases e3 <;> cases e4 <;> cases e5 <;>
    simp_all [NewSPVWallet, loggedBeforeFatal, Action.isFatalf, Action.logsDataDir,
      List.takeWhile]

/-- When the first five steps succeed and `NewSPVWallet` still leaves through
`t.Fatalf` (the `SpvSync` call fails, or the synced signal does not come in
time), the data directory is not logged. -/
theorem NewSPVWallet_no_dir_log_on_late_failure (spvAddrs : List String) (env : SetupEnv)
    (h1 : env.createLogErr = none) (h2 : env.startErr = none) (h3 : env.certErr = none)
    (h4 : env.dialErr = none) (h5 : env.createWalletErr = none)
    (hf : (NewSPVWallet spvAddrs env).2 = false) :
    loggedBeforeFatal (NewSPVWallet spvAddrs env).1 = false ∧
      ∃ format args, Action.fatalf format args ∈ (NewSPVWallet spvAddrs env).1 := by
  obtain ⟨e1, e2, e3, e4, e5, e6, st, sb⟩ := env
  simp only at h1 h2 h3 h4 h5
  subst h1 h2 h3 h4 h5
  cases e6 with
  | some err =>
    simp [NewSPVWallet, loggedBeforeFatal, Action.isFatalf, Action.logsDataDir, List.takeWhile]
  | none =>
    by_cases hs : sendCount (consumeSyncMsgs sb st) ≠ 0
    · simp [NewSPVWallet, hs] at hf
    · simp [NewSPVWallet, hs, loggedBeforeFatal, Action.isFatalf, Action.logsDataDir,
        List.takeWhile]

/-- C6: when the `SpvSync` call fails, and when the synced signal does not come
within the 60 s, `NewSPVWallet` cancels the sync session and calls `t.Fatalf`
without having logged the data directory. -/
theorem NewSPVWallet_sync_failures_skip_dir_log :
    (NewSPVWallet ["127.0.0.1:18555"] { okEnv with spvSyncErr := some 1 }).2 = false ∧
    loggedBeforeFatal (NewSPVWallet ["127.0.0.1:18555"]
      { okEnv with spvSyncErr := some 1 }).1 = false ∧
    Action.fatalf "error running rpc sync: %v" [.err (.ext 1)] ∈
      (NewSPVWallet ["127.0.0.1:18555"] { okEnv with spvSyncErr := some 1 }).1 ∧
    (NewSPVWallet ["127.0.0.1:18555"] { okEnv with sendBeforeTimer := false }).2 = false ∧
    loggedBeforeFatal (NewSPVWallet ["127.0.0.1:18555"]
      { okEnv with sendBeforeTimer := false }).1 = false ∧
    Action.fatalf "timeout waiting for initial sync to complete" [] ∈
      (NewSPVWallet ["127.0.0.1:18555"] { okEnv with sendBeforeTimer := false }).1 := by
  simp [NewSPVWallet, okEnv, loggedBeforeFatal, Action.isFatalf, Action.logsDataDir,
    List.takeWhile, consumeSyncMsgs, sendCount]

/-- C9: whatever the peer addresses and the outcome of the external steps, every
`CreateWallet` request of `NewSPVWallet` has the seed of 31 zero bytes followed
by 0xff and the bytes of "pass" as both passphrases, and every `SpvSync`
request carries the peer addresses unchanged, account discovery and the same
passphrase; when the steps up to `CreateWallet` succeed, the two requests are
issued in that order. -/
theorem NewSPVWallet_requests_fixed (spvAddrs : List String) (env : SetupEnv) :
    (∀ ctx req, Action.createWallet ctx req ∈ (NewSPVWallet spvAddrs env).1 →
      req = { Seed := List.replicate 31 0 ++ [255],
              PublicPassphrase := [112, 97, 115, 115],
              PrivatePassphrase := [112, 97, 115, 115] }) ∧
    (∀ ctx req, Action.spvSync ctx req ∈ (NewSPVWallet spvAddrs env).1 →
      req = { SpvConnect := spvAddrs, DiscoverAccounts := true,
              PrivatePassphrase := [112, 97, 115, 115] }) ∧
    (env.createLogErr = none → env.startErr = none → env.certErr = none →
      env.dialErr = none → env.createWalletErr = none →
      (NewSPVWallet spvAddrs env).1.filter Action.isLoaderRequest =
        [ .createWallet (.withTimeout .background 30)
            { Seed := List.replicate 31 0 ++ [255],
              PublicPassphrase := [112, 97, 115, 115],
              PrivatePassphrase := [112, 97, 115, 115] },
          .spvSync (.withCancel .background)
            { SpvConnect := spvAddrs, DiscoverAccounts := true,
              PrivatePassphrase := [112, 97, 115, 115] } ]) := by
  obtain ⟨e1, e2, e3, e4, e5, e6, st, sb⟩ := env
  by_cases hs : sendCount (consumeSyncMsgs sb st) ≠ 0 <;>
  cases e1 <;> cases e2 <;> cases e3 <;> cases e4 <;> cases e5 <;> cases e6 <;>
    simp [NewSPVWallet, hs, hdSeed_eq, privatePass_eq, Action.isLoaderRequest]

/-- C9 on two peer addresses with every step succeeding. -/
theorem NewSPVWallet_requests_fixed_witness :
    (NewSPVWallet ["10.0.0.1:18555", "10.0.0.2:18555"] okEnv).1.filter Action.isLoaderRequest =
      [ .createWallet (.withTimeout .background 30)
          { Seed := List.replicate 31 0 ++ [255],
            PublicPassphrase := [112, 97, 115, 115],
            PrivatePassphrase := [112, 97, 115, 115] },
        .spvSync (.withCancel .background)
          { SpvConnect := ["10.0.0.1:18555", "10.0.0.2:18555"], DiscoverAccounts := true,
            PrivatePassphrase := [112, 97, 115, 115] } ] :=
  (NewSPVWallet_requests_fixed ["10.0.0.1:18555", "10.0.0.2:18555"] okEnv).2.2
    rfl rfl rfl rfl rfl

/-! ## The scripted scenarios -/

/-- Every `assertWalletSynced` call of a run in which statements fail is also
made, on the same network, in the run in which none fails. -/
theorem runScript_subset (fails : Nat → Bool) (script : List Step) (i : Nat) (s : Net)
    (c : AssertCall) (hc : c ∈ runScript fails i s script) :
    c ∈ runScript noFailure i s script := by
  induction script generalizing i s with
  | nil => simp [runScript] at hc
  | cons st rest ih =>
    simp only [runScript, noFailure, Bool.and_false, Bool.false_eq_true, if_false,
      List.mem_append] at hc ⊢
    by_cases hab : (st.canAbort && fails i) = true
    · rw [if_pos hab] at hc
      exact Or.inl hc
    · rw [if_neg hab, List.mem_append] at hc
      rcases hc with h | h
      · exact Or.inl h
      · exact Or.inr (ih (i + 1) (s.step st) h)

/-- C10: whichever statements fail, every `assertWalletSynced` call made while
the miners are partitioned is against an SPV peer of the wallet whose chain
above the fork point is at least as long as that of every SPV peer, and in
`TestSPVReorg2` strictly longer than the other peer's, with lengths 1 vs 0,
2 vs 1, 11 vs 2 and 14 vs 11; in `TestSPVReorg` the wallet has miner1 as its
only peer, the one partitioned call is against miner1 at 2 blocks with miner2
at 3, and after the partition miner2 is asserted against only once
`ConnectNode` and `JoinNodes` have returned without error. -/
theorem scenarios_assert_on_longest_chain (fails : Nat → Bool) :
    (∀ c, c ∈ runScript fails 0 Net.init TestSPVReorg →
      c.net.partitioned = true → c.onLongest = true) ∧
    (∀ c, c ∈ runScript fails 0 Net.init TestSPVReorg2 →
      c.net.partitioned = true → c.onStrictlyLongest = true) ∧
    ((runScript noFailure 0 Net.init TestSPVReorg2).filter fun c => c.net.partitioned).map
      AssertCall.lengths = [(1, 0), (2, 1), (11, 2), (14, 11)] ∧
    (∀ c, c ∈ runScript fails 0 Net.init TestSPVReorg → c.net.spvPeers = [.miner1]) ∧
    ((runScript noFailure 0 Net.init TestSPVReorg).filter fun c => c.net.partitioned).map
      (fun c => (c.miner, c.net.gen1, c.net.gen2)) = [(.miner1, 2, 3)] ∧
    (∀ c, c ∈ runScript fails 0 Net.init TestSPVReorg →
      c.net.everSplit = true → c.miner = .miner2 →
      c.net.connected = true ∧ c.net.joined = true ∧ c.net.partitioned = false) ∧
    (runScript noFailure 0 Net.init TestSPVReorg).map (fun c => (c.miner, c.net.partitioned)) =
      [(.miner1, false), (.miner2, false), (.miner1, true), (.miner1, false),
        (.miner2, false)] ∧
    (runScript (fun i => decide (i = 22)) 0 Net.init TestSPVReorg).map
      (fun c => (c.miner, c.net.partitioned)) =
      [(.miner1, false), (.miner2, false), (.miner1, true)] ∧
    (runScript (fun i => decide (i = 23)) 0 Net.init TestSPVReorg).map
      (fun c => (c.miner, c.net.partitioned)) =
      [(.miner1, false), (.miner2, false), (.miner1, true)] := by
  have h1 : ∀ c, c ∈ runScript noFailure 0 Net.init TestSPVReorg →
      (c.net.partitioned = true → c.onLongest = true) ∧ c.net.spvPeers = [.miner1] ∧
      (c.net.everSplit = true → c.miner = .miner2 →
        c.net.connected = true ∧ c.net.joined = true ∧ c.net.partitioned = false) := by
    decide
  have h2 : ∀ c, c ∈ runScript noFailure 0 Net.init TestSPVReorg2 →
      (c.net.partitioned = true → c.onStrictlyLongest = true) := by
    decide
  refine ⟨?_, ?_, by decide, ?_, by decide, ?_, by decide, by decide, by decide⟩
  · intro c hc
    exact (h1 c (runScript_subset fails _ _ _ c hc)).1
  · intro c hc
    exact h2 c (runScript_subset fails _ _ _ c hc)
  · intro c hc
    exact (h1 c (runScript_subset fails _ _ _ c hc)).2.1
  · intro c hc
    exact (h1 c (runScript_subset fails _ _ _ c hc)).2.2

end SpvReorg
